import Mathlib

/-!
Shallow embedding of the UCW (Universal Command Wrapper) help-text parsing
core: the base parser (`src/parser/base.py`), the POSIX parser
(`src/parser/posix.py`), the data model (`src/models.py`) and the command
wrapper (`src/wrapper.py`).  Python strings are modelled as `List Char`
(ASCII scope); each `re` call of the source is embedded either by a direct
character-level matcher or through a small backtracking regex interpreter
whose match preference mirrors Python's leftmost, greedy-with-backtracking
semantics.
-/

namespace UCW

/-! ## Character and list-of-char helpers (Python `str` primitives) -/

/-- Python default whitespace set used by `str.strip`, `str.split` and `\s`
(ASCII scope). -/
def isPySpace (c : Char) : Bool :=
  c = ' ' || c = '\t' || c = '\n' || c = '\r' || c = '\x0b' || c = '\x0c'

/-- Character class of the regex `\w` (ASCII scope). -/
def isWordChar (c : Char) : Bool := c.isAlpha || c.isDigit || c = '_'

/-- Character class of the regex `[a-zA-Z0-9-]`. -/
def isAlnumDash (c : Char) : Bool := c.isAlpha || c.isDigit || c = '-'

/-- Python `str.lower` (ASCII scope). -/
def pyLowerL (s : List Char) : List Char := s.map Char.toLower

/-- Python `str.upper` (ASCII scope). -/
def pyUpperL (s : List Char) : List Char := s.map Char.toUpper

/-- Python `str.strip()` with no argument. -/
def stripL (s : List Char) : List Char :=
  ((s.dropWhile isPySpace).reverse.dropWhile isPySpace).reverse

/-- `p.startsWithL s`: Python `s.startswith(p)`. -/
def startsWithL : List Char → List Char → Bool
  | [], _ => true
  | _ :: _, [] => false
  | p :: ps, c :: cs => p = c && startsWithL ps cs

/-- Python `s.endswith(p)`. -/
def endsWithL (p s : List Char) : Bool := startsWithL p.reverse s.reverse

/-- Python substring containment `p in s`. -/
def containsSub (pat : List Char) : List Char → Bool
  | [] => pat.isEmpty
  | c :: cs => startsWithL pat (c :: cs) || containsSub pat cs

/-- Python `text.split('\n')` (always at least one piece). -/
def splitOnNl : List Char → List (List Char)
  | [] => [[]]
  | c :: cs =>
    let r := splitOnNl cs
    if c = '\n' then [] :: r
    else
      match r with
      | t :: ts => (c :: t) :: ts
      | [] => [[c]]

/-- Python `s.replace(pat, rep, 1)`: replace the first occurrence only. -/
def replaceFirst (pat rep : List Char) : List Char → List Char
  | [] => if pat = [] then rep else []
  | c :: cs =>
    if startsWithL pat (c :: cs) then rep ++ (c :: cs).drop pat.length
    else c :: replaceFirst pat rep cs

/-- Python `' '.join(parts)`. -/
def joinSpace (parts : List (List Char)) : List Char :=
  (parts.intersperse [' ']).flatten

/-- Worker for `pySplitWs`, accumulating the current token reversed. -/
def pySplitWsGo (cur : List Char) : List Char → List (List Char)
  | [] => if cur = [] then [] else [cur.reverse]
  | c :: cs =>
    if isPySpace c then
      if cur = [] then pySplitWsGo [] cs else cur.reverse :: pySplitWsGo [] cs
    else pySplitWsGo (c :: cur) cs

/-- Python `s.split()` with no argument: split on whitespace runs,
dropping empty tokens. -/
def pySplitWs (s : List Char) : List (List Char) := pySplitWsGo [] s

/-- Python `s.split(':', 1)[1]`: everything after the first colon. -/
def afterColon (s : List Char) : List Char :=
  (s.dropWhile (fun c => c ≠ ':')).drop 1

/-- Text after the first occurrence of `pat` (Python
`s.split(pat, 1)[1]` when `pat in s`; `none` when absent). -/
def splitOnceAfter (pat : List Char) : List Char → Option (List Char)
  | [] => if pat = [] then some [] else none
  | c :: cs =>
    if startsWithL pat (c :: cs) then some ((c :: cs).drop pat.length)
    else splitOnceAfter pat cs

/-- Maximal-munch `\s*` (valid whenever the following regex token cannot
match a whitespace character, as in every pattern embedded below). -/
def dropSpaces (s : List Char) : List Char := s.dropWhile isPySpace

/-- Greedy `(\w+)` split: the leading word-character run and the rest. -/
def spanWord (s : List Char) : List Char × List Char :=
  (s.takeWhile isWordChar, s.dropWhile isWordChar)

/-! ## A small regex interpreter

Used for the `re.sub`/`re.search` calls of
`BaseParser._extract_positional_args`.  `mlens r s` lists the lengths of
the prefixes of `s` matched by `r`, in Python's backtracking preference
order (greedy quantifiers first), so the head of the list is the match
Python selects at that position. -/

inductive RE where
  | eps : RE
  | lit : Char → RE
  | seq : RE → RE → RE
  | alt : RE → RE → RE
  | opt : RE → RE
  | starC : (Char → Bool) → RE
  | plusC : (Char → Bool) → RE

/-- Match-length enumeration in backtracking preference order. -/
def mlens : RE → List Char → List Nat
  | .eps, _ => [0]
  | .lit _, [] => []
  | .lit c, x :: _ => if x = c then [1] else []
  | .seq a b, s => (mlens a s).flatMap (fun n => (mlens b (s.drop n)).map (fun m => n + m))
  | .alt a b, s => mlens a s ++ mlens b s
  | .opt r, s => mlens r s ++ [0]
  | .starC p, s =>
    let k := (s.takeWhile p).length
    (List.range (k + 1)).map (fun i => k - i)
  | .plusC p, s =>
    let k := (s.takeWhile p).length
    (List.range k).map (fun i => k - i)

/-- Fuel-based worker for `reSubAll`: each step consumes at least one
character, so fuel equal to the string length is never exhausted (the
fuel-zero branch is unreachable and returns the rest unchanged). -/
def reSubGo (r : RE) (rep : List Char) : Nat → List Char → List Char
  | 0, s => s
  | _ + 1, [] => []
  | fuel + 1, c :: cs =>
    match (mlens r (c :: cs)).head? with
    | some (n + 1) => rep ++ reSubGo r rep fuel ((c :: cs).drop (n + 1))
    | _ => c :: reSubGo r rep fuel cs

/-- `re.sub(r, rep, s)`: replace every leftmost non-overlapping match of
`r` (none of the embedded patterns can match the empty string). -/
def reSubAll (r : RE) (rep : List Char) (s : List Char) : List Char :=
  reSubGo r rep s.length s

/-- `re.search(r, s) is not None`. -/
def reSearchAt (r : RE) : List Char → Bool
  | [] => !(mlens r []).isEmpty
  | c :: cs => !(mlens r (c :: cs)).isEmpty || reSearchAt r cs

/-- Concatenation of a list of regexes. -/
def rcat : List RE → RE
  | [] => .eps
  | [r] => r
  | r :: rs => .seq r (rcat rs)

/-- Literal string regex. -/
def rstr (s : String) : RE := rcat (s.data.map RE.lit)

/-! ## Data model (`src/models.py`) -/

/-- `models.OptionSpec`. -/
structure OptionSpec where
  flag : List Char
  takes_value : Bool
  description : List Char := []
  type_hint : Option (List Char) := none
  required : Bool := false
  default : Option (List Char) := none
  deriving Repr, DecidableEq

/-- `OptionSpec.is_boolean`. -/
def OptionSpec.is_boolean (o : OptionSpec) : Bool := !o.takes_value

/-- `models.PositionalArgSpec`. -/
structure PositionalArgSpec where
  name : List Char
  required : Bool
  variadic : Bool := false
  description : Option (List Char) := none
  type_hint : Option (List Char) := none
  deriving Repr, DecidableEq

/-- `models.CommandSpec` (after `__post_init__`, which replaces the `None`
defaults of `positional_args`/`examples` by empty lists). -/
structure CommandSpec where
  name : List Char
  usage : List Char
  options : List OptionSpec
  positional_args : List PositionalArgSpec
  description : List Char
  examples : List (List Char)
  deriving Repr, DecidableEq

/-- `models.ExecutionResult`. -/
structure ExecutionResult where
  command : List Char
  stdout : List Char
  stderr : List Char
  return_code : Int
  elapsed : Float

/-- `ExecutionResult.success`. -/
def ExecutionResult.success (r : ExecutionResult) : Bool := r.return_code == 0

/-! ## Usage-line extraction (`BaseParser._extract_usage`) -/

/-- The usage-header test applied to a stripped line:
`line_lower == 'usage' or any(k in line_lower for k in
['usage:', 'syntax:', 'command:'])`. -/
def is_usage_header (line_stripped : List Char) : Bool :=
  let ll := pyLowerL line_stripped
  ll = "usage".data || containsSub "usage:".data ll ||
    containsSub "syntax:".data ll || containsSub "command:".data ll

/-- Continuation-line collection: up to `n` further lines, each taken while
non-blank, indented (starts with a space) and containing one of
`< > [ ] - |`. -/
def contLines : Nat → List (List Char) → List (List Char)
  | 0, _ => []
  | _, [] => []
  | n + 1, l :: ls =>
    let st := stripL l
    if st = [] then []
    else if startsWithL [' '] l &&
        st.any (fun c => ['<', '>', '[', ']', '-', '|'].contains c) then
      st :: contLines n ls
    else []

/-- Section markers skipped when scanning for a block-layout usage line. -/
def sectionMarkers : List (List Char) :=
  (["CORE", "GITHUB", "ALIAS", "ADDITIONAL", "HELP", "FLAGS", "OPTIONS",
    "EXAMPLES", "INHERITED", "THESE", "START", "WORK", "EXAMINE", "GROW"]).map
    String.data

/-- `next_line.upper().startswith((...markers...))`. -/
def isSectionMarker (st : List Char) : Bool :=
  sectionMarkers.any (fun m => startsWithL m (pyUpperL st))

/-- Block-layout lookahead: the first of the next `n` lines that is
non-blank and not a section marker, together with the lines after it. -/
def blockScan : Nat → List (List Char) → Option (List Char × List (List Char))
  | 0, _ => none
  | _, [] => none
  | n + 1, l :: ls =>
    let st := stripL l
    if !st.isEmpty && !isSectionMarker st then some (st, ls)
    else blockScan n ls

/-- Line loop of `_extract_usage`. -/
def extract_usage_go : List (List Char) → List Char
  | [] => []
  | line :: rest =>
    let ls := stripL line
    if is_usage_header ls then
      let inlinePart : Option (List Char) :=
        if ls.contains ':' then
          let up := stripL (afterColon ls)
          if up ≠ [] then some (joinSpace (up :: contLines 5 rest)) else none
        else none
      match inlinePart with
      | some u => u
      | none =>
        match blockScan 5 rest with
        | some (st, ls2) => joinSpace (st :: contLines 4 ls2)
        | none => ls
    else extract_usage_go rest

/-- `BaseParser._extract_usage`. -/
def extract_usage (help_text : List Char) : List Char :=
  extract_usage_go (splitOnNl help_text)

/-! ## Type inference (`BaseParser._infer_positional_type` and
`BaseParser._infer_type_hint`) -/

/-- `BaseParser._infer_positional_type`. -/
def infer_positional_type (arg_name : List Char) : List Char :=
  let l := pyLowerL arg_name
  if (["file", "path", "directory", "dir", "source", "dest", "target"]).any
      (fun w => containsSub w.data l) then "path".data
  else if (["pattern", "string", "text", "name"]).any
      (fun w => containsSub w.data l) then "str".data
  else if (["number", "count", "size", "port"]).any
      (fun w => containsSub w.data l) then "int".data
  else "str".data

/-- `BaseParser._infer_type_hint`. -/
def infer_type_hint (description : List Char) : Option (List Char) :=
  if description.isEmpty then none
  else
    let l := pyLowerL description
    if (["file", "path", "directory"]).any (fun w => containsSub w.data l) then
      some "path".data
    else if (["number", "count", "size"]).any (fun w => containsSub w.data l) then
      some "int".data
    else if (["verbose", "quiet", "debug"]).any (fun w => containsSub w.data l) then
      some "bool".data
    else some "str".data

/-! ## POSIX option-line parsing (`PosixParser._is_option_line` and
`PosixParser._parse_option_line`)

Each of the four ordered regex templates of `_parse_option_line` is
embedded as a character-level matcher returning its capture groups; the
greedy/backtracking behaviour of each template is noted inline. -/

/-- `PosixParser._is_option_line`:
`re.match(r'^\s*-[a-zA-Z]', line) or re.match(r'^\s*--[a-zA-Z]', line)`. -/
def is_option_line (line : List Char) : Bool :=
  match line.dropWhile isPySpace with
  | '-' :: '-' :: c :: _ => c.isAlpha
  | '-' :: c :: _ => c.isAlpha
  | _ => false

/-- Template 1: `^\s*(-[a-zA-Z])(?:\[[^\]]*\])?\s*<(\w+)>\s*(.*)`.
The optional bracket group, when present in the input, must match (the
skip alternative then always fails on the `<`), `[^\]]*` stops at the
first `]`, and `\w+` is maximal munch followed by a mandatory `>`. -/
def matchPat1 (line : List Char) : Option (List Char × List Char × List Char) :=
  match dropSpaces line with
  | '-' :: c :: rest =>
    if c.isAlpha then
      let afterBracket : Option (List Char) :=
        match rest with
        | '[' :: r =>
          match r.dropWhile (fun ch => ch ≠ ']') with
          | ']' :: r2 => some r2
          | _ => none
        | _ => some rest
      match afterBracket with
      | none => none
      | some r2 =>
        match dropSpaces r2 with
        | '<' :: r4 =>
          let (w, r5) := spanWord r4
          if w ≠ [] then
            match r5 with
            | '>' :: r6 => some (['-', c], w, dropSpaces r6)
            | _ => none
          else none
        | _ => none
    else none
  | _ => none

/-- Template 2: `^\s*(--[a-zA-Z][a-zA-Z0-9-]*)=(\w+)\s*(.*)`. -/
def matchPat2 (line : List Char) : Option (List Char × List Char × List Char) :=
  match dropSpaces line with
  | '-' :: '-' :: c :: rest =>
    if c.isAlpha then
      let run := rest.takeWhile isAlnumDash
      match rest.dropWhile isAlnumDash with
      | '=' :: r3 =>
        let (w, r4) := spanWord r3
        if w ≠ [] then some ('-' :: '-' :: c :: run, w, dropSpaces r4) else none
      | _ => none
    else none
  | _ => none

/-- Template 3: `^\s*(-[a-zA-Z])(?:,\s*(--[a-zA-Z][a-zA-Z0-9-]*))?\s*(.*)`.
The optional `,--long` group is taken greedily when it matches; otherwise
`.*` consumes from the comma on. -/
def matchPat3 (line : List Char) : Option (List Char × Option (List Char) × List Char) :=
  match dropSpaces line with
  | '-' :: c :: rest =>
    if c.isAlpha then
      let longPart : Option (List Char × List Char) :=
        match rest with
        | ',' :: r =>
          match dropSpaces r with
          | '-' :: '-' :: d :: r3 =>
            if d.isAlpha then
              let run := r3.takeWhile isAlnumDash
              some ('-' :: '-' :: d :: run, r3.dropWhile isAlnumDash)
            else none
          | _ => none
        | _ => none
      match longPart with
      | some (g2, r4) => some (['-', c], some g2, dropSpaces r4)
      | none => some (['-', c], none, dropSpaces rest)
    else none
  | _ => none

/-- Template 4: `^\s*(--[a-zA-Z][a-zA-Z0-9-]*)\s*(.*)`. -/
def matchPat4 (line : List Char) : Option (List Char × List Char) :=
  match dropSpaces line with
  | '-' :: '-' :: c :: rest =>
    if c.isAlpha then
      some ('-' :: '-' :: c :: rest.takeWhile isAlnumDash,
        dropSpaces (rest.dropWhile isAlnumDash))
    else none
  | _ => none

/-- Python truthiness of an optional capture group. -/
def groupTruthy : Option (List Char) → Bool
  | none => false
  | some s => !s.isEmpty

/-- Shared tail of `_parse_option_line`: `takes_value`, stripped
description and inferred type hint from the chosen flag/description. -/
def mkOptionFromMatch (line primary description : List Char) : OptionSpec :=
  { flag := primary
    takes_value := line.contains '=' ||
      (["ARG", "SIZE", "WORD", "COLS", "PATTERN", "WHEN"]).any
        (fun w => containsSub w.data (pyUpperL description))
    description := stripL description
    type_hint := infer_type_hint description }

/-- Group resolution for the three-group templates:
`if groups[1] and ('=' in line or '<' in line)` selects the first group as
the flag, otherwise the long form is preferred when present. -/
def resolveGroups3 (line g0 : List Char) (g1 : Option (List Char))
    (g2 : List Char) : OptionSpec :=
  if groupTruthy g1 && (line.contains '=' || line.contains '<') then
    mkOptionFromMatch line g0 g2
  else
    match g1 with
    | some l => if !l.isEmpty then mkOptionFromMatch line l g2
                else mkOptionFromMatch line g0 g2
    | none => mkOptionFromMatch line g0 g2

/-- `PosixParser._parse_option_line`: the four templates tried in order,
first match wins. -/
def parse_option_line (line : List Char) : Option OptionSpec :=
  match matchPat1 line with
  | some (g0, g1, g2) => some (resolveGroups3 line g0 (some g1) g2)
  | none =>
    match matchPat2 line with
    | some (g0, g1, g2) => some (resolveGroups3 line g0 (some g1) g2)
    | none =>
      match matchPat3 line with
      | some (g0, g1, g2) => some (resolveGroups3 line g0 g1 g2)
      | none =>
        match matchPat4 line with
        | some (g0, g2) => some (mkOptionFromMatch line g0 g2)
        | none => none

/-- Line loop of `BaseParser._extract_options`. -/
def extract_options_go : List (List Char) → List OptionSpec
  | [] => []
  | l :: ls =>
    let s := stripL l
    if is_option_line s then
      match parse_option_line s with
      | some o => o :: extract_options_go ls
      | none => extract_options_go ls
    else extract_options_go ls

/-- `BaseParser._extract_options`. -/
def extract_options (help_text : List Char) : List OptionSpec :=
  extract_options_go (splitOnNl help_text)

/-! ## Positional-argument extraction
(`BaseParser._extract_positional_args`) -/

/-- The `option_patterns` list, in source order (the input is already
lower-cased, so the `re.IGNORECASE` flag only matters through the
two-case character classes). -/
def optionPatterns : List RE :=
  [ rcat [.lit '[', .opt (.lit '-'), .plusC isWordChar, .starC isPySpace,
      .lit '|', .starC isPySpace, .lit '-', .opt (.lit '-'),
      .plusC isWordChar, .lit ']'],
    rcat [.lit '[', .opt (.lit '-'), .plusC isWordChar, .starC isPySpace,
      .lit '|', .starC isPySpace, .lit '-', .opt (.lit '-'),
      .plusC isWordChar, .starC isPySpace, .lit '|', .starC isPySpace,
      .lit '-', .opt (.lit '-'), .plusC isWordChar, .starC isPySpace,
      .lit '|', .starC isPySpace, .lit '-', .opt (.lit '-'),
      .plusC isWordChar, .lit ']'],
    rcat [.lit '[', .opt (.lit '-'), .plusC isWordChar, .starC isPySpace,
      .lit '|', .starC isPySpace, .lit '-', .opt (.lit '-'),
      .plusC isWordChar, .starC isPySpace, .lit '|', .starC isPySpace,
      .lit '-', .opt (.lit '-'), .plusC isWordChar, .lit ']'],
    rcat [.lit '[', .lit '-', .opt (.lit '-'), .plusC isWordChar,
      .opt (.lit '['), .opt (.lit '='), .starC isPySpace, .lit '<',
      .plusC isWordChar, .lit '>', .opt (.lit ']'), .lit ']'],
    rcat [.lit '[', .lit '-', .opt (.lit '-'), .plusC isWordChar, .lit ']'],
    rcat [.lit '[', .opt (.lit '-'), .plusC isWordChar, .starC isPySpace,
      .lit '=', .starC isPySpace, .lit '<', .plusC isWordChar, .lit '>',
      .lit ']'],
    rcat [.lit '[', .opt (.lit '-'), .plusC isWordChar, .starC isPySpace,
      .lit '<', .plusC isWordChar, .lit '>', .lit ']'],
    rstr "[option]...",
    rstr "[option]",
    rcat [rstr "[flag", .opt (.lit 's'), .lit ']'],
    rstr "[flag]",
    rstr "[-t]",
    rstr "[-h]",
    rstr "[-l]",
    rstr "[-p]",
    rcat [rstr "[-o", .starC isWordChar, .lit ']'],
    rcat [rstr "[-d", .starC isWordChar, .lit ']'],
    rcat [rstr "[-d", .plusC isPySpace, .plusC isWordChar, .lit ']'],
    rstr "[-olevel]",
    rcat [rstr "[-d", .plusC isPySpace, rstr "debugopts", .lit ']'] ]

/-- `re.sub(r'\s*\|\s*', ' ', ...)` pattern. -/
def pipeRE : RE := rcat [.starC isPySpace, .lit '|', .starC isPySpace]

/-- `re.sub(r'\s+', ' ', ...)` pattern. -/
def wsRE : RE := .plusC isPySpace

/-- `re.search(r'<command>\s+<subcommand>', ...)` pattern. -/
def cmdSubRE : RE :=
  rcat [rstr "<command>", .plusC isPySpace, rstr "<subcommand>"]

/-- `re.search(r'<command>', ...)` pattern. -/
def cmdRE : RE := rstr "<command>"

/-- `re.search(r'\[<args>\]|\[<args>\.\.\.\]|<args>\.\.\.', ...)` pattern. -/
def argsRE : RE :=
  .alt (rstr "[<args>]") (.alt (rstr "[<args>...]") (rstr "<args>..."))

/-- `re.sub(r'^usage:\s*', '', usage_clean, flags=re.IGNORECASE)` on the
already lower-cased usage line (anchored, so a prefix test). -/
def removeUsageLabel (s : List Char) : List Char :=
  if startsWithL "usage:".data s then
    (s.drop 6).dropWhile isPySpace
  else s

/-- Token loop body of `_extract_positional_args`: `none` when the token
is skipped by one of the guards. -/
def processToken (part0 : List Char) : Option PositionalArgSpec :=
  let part := stripL part0
  if part = [] || part = ":".data then none
  else if ["|".data, "||".data, "&&".data, "=".data, "==".data].contains part then none
  else if startsWithL "-".data part then none
  else if part.contains '=' && !startsWithL "<".data part then none
  else if part.length = 1 && part ≠ "<".data && part ≠ ">".data then none
  else
    let bracketed := startsWithL "[".data part && endsWithL "]".data part
    let required := !bracketed
    let part := if bracketed then (part.drop 1).dropLast else part
    let variadic := endsWithL "...".data part
    let part := if variadic then part.dropLast.dropLast.dropLast else part
    if part = [] then none
    else if part = "<".data || part = ">".data || part = "<>".data then none
    else
      let part :=
        if startsWithL "<".data part && endsWithL ">".data part then
          (part.drop 1).dropLast
        else part
      if part = [] || part.length < 2 then none
      else if part.any (fun c => ['[', ']', '|', '=', '-'].contains c) then none
      else
        some { name := pyUpperL part
               required := required
               variadic := variadic
               type_hint := some (infer_positional_type part) }

/-- `PositionalArgSpec(name="COMMAND", required=True, variadic=False,
type_hint='str')`. -/
def commandArg : PositionalArgSpec :=
  { name := "COMMAND".data, required := true, variadic := false
    type_hint := some "str".data }

/-- The SUBCOMMAND arg of the hierarchical short-circuit. -/
def subcommandArg : PositionalArgSpec :=
  { name := "SUBCOMMAND".data, required := true, variadic := false
    type_hint := some "str".data }

/-- The optional variadic ARGS arg of the git-like pattern. -/
def argsArg : PositionalArgSpec :=
  { name := "ARGS".data, required := false, variadic := true
    type_hint := some "str".data }

/-- `BaseParser._extract_positional_args`. -/
def extract_positional_args (usage : List Char) : List PositionalArgSpec :=
  if usage.isEmpty then []
  else
    let usage_clean := pyLowerL usage
    let usage_clean := removeUsageLabel usage_clean
    let usage_clean :=
      let commandName := usage_clean.takeWhile isWordChar
      if commandName ≠ [] then replaceFirst commandName [] usage_clean
      else usage_clean
    let usage_clean := optionPatterns.foldl (fun s r => reSubAll r [] s) usage_clean
    let usage_clean := reSubAll pipeRE " ".data usage_clean
    let usage_clean := stripL (reSubAll wsRE " ".data usage_clean)
    let original_usage := pyLowerL usage
    if reSearchAt cmdSubRE original_usage then [commandArg, subcommandArg]
    else
      let args :=
        (if reSearchAt cmdRE original_usage then [commandArg] else []) ++
        (if reSearchAt argsRE original_usage then [argsArg] else [])
      if args ≠ [] then args
      else if usage_clean.isEmpty then []
      else (pySplitWs usage_clean).filterMap processToken

/-! ## Description and examples extraction (`PosixParser`) -/

/-- Sentinel detection at the head of `_extract_description`. -/
def sentinelDetected (help_text : List Char) : Bool :=
  containsSub "Failed to get help".data help_text ||
  containsSub "Help command timed out".data help_text ||
  containsSub "No help available".data help_text

/-- `line.startswith(('SYNOPSIS', 'DESCRIPTION', 'OPTIONS'))`. -/
def startsNameStop (s : List Char) : Bool :=
  (["SYNOPSIS", "DESCRIPTION", "OPTIONS"]).any (fun m => startsWithL m.data s)

/-- `line.startswith(('Usage:', 'SYNOPSIS:', '-', 'Options:'))`, used by
both the description fallback and the examples scanner. -/
def startsUsageMarker (s : List Char) : Bool :=
  (["Usage:", "SYNOPSIS:", "-", "Options:"]).any (fun m => startsWithL m.data s)

/-- NAME-section scan of `_extract_description` (`none` when the loop
finishes or breaks without returning). -/
def descNameScan (in_name : Bool) : List (List Char) → Option (List Char)
  | [] => none
  | l :: ls =>
    let s := stripL l
    if startsWithL "NAME".data s then descNameScan true ls
    else if in_name && !s.isEmpty && !startsNameStop s then
      match splitOnceAfter " - ".data s with
      | some rest => some (stripL rest)
      | none =>
        if !startsWithL "-".data s then some s
        else descNameScan in_name ls
    else if in_name && startsNameStop s then none
    else descNameScan in_name ls

/-- Fallback scan of `_extract_description` over `lines[:10]`. -/
def descFallback : Nat → List (List Char) → List Char
  | 0, _ => []
  | _, [] => []
  | n + 1, l :: ls =>
    let s := stripL l
    if !s.isEmpty && !startsUsageMarker s then s
    else descFallback n ls

/-- `PosixParser._extract_description`. -/
def extract_description (help_text : List Char) : List Char :=
  if sentinelDetected help_text then []
  else
    let lines := splitOnNl help_text
    match descNameScan false lines with
    | some d => d
    | none => descFallback 10 lines

/-- Line loop of `PosixParser._extract_examples`. -/
def extract_examples_go (in_examples : Bool) : List (List Char) → List (List Char)
  | [] => []
  | l :: ls =>
    let s := stripL l
    if containsSub "example".data (pyLowerL s) then extract_examples_go true ls
    else if in_examples && !s.isEmpty && !startsUsageMarker s then
      s :: extract_examples_go in_examples ls
    else if in_examples && startsUsageMarker s then []
    else extract_examples_go in_examples ls

/-- `PosixParser._extract_examples`. -/
def extract_examples (help_text : List Char) : List (List Char) :=
  extract_examples_go false (splitOnNl help_text)

/-! ## Assembly (`PosixParser._parse_help_text`,
`BaseParser.parse_command`) -/

/-- `PosixParser._parse_help_text`. -/
def parse_help_text (command_name help_text : List Char) : CommandSpec :=
  { name := command_name
    usage := extract_usage help_text
    options := extract_options help_text
    positional_args := extract_positional_args (extract_usage help_text)
    description := extract_description help_text
    examples := extract_examples help_text }

/-- The all-empty specification returned for a falsy command name. -/
def emptySpec : CommandSpec :=
  { name := [], usage := [], options := [], positional_args := []
    description := [], examples := [] }

/-- `BaseParser.parse_command`, with the impure `_get_help_text` step
abstracted as the `acquire` oracle (the `None`/non-string type errors are
outside the string model). -/
def parse_command (acquire : List Char → List Char)
    (command_name : List Char) : CommandSpec :=
  if command_name.isEmpty then emptySpec
  else parse_help_text command_name (acquire command_name)

/-- Whether `parse_command` reaches its `_get_help_text` call: every
non-empty name does, only the empty name short-circuits. -/
def acquisition_attempted (command_name : List Char) : Bool :=
  !command_name.isEmpty

/-- The acquirer's exhausted-alternatives sentinel
`f"No help available for {command_name}"` (`BaseParser._get_help_text`). -/
def sentinelNoHelp (command_name : List Char) : List Char :=
  "No help available for ".data ++ command_name

/-! ## Spec-side type-inference table

Definition following the specification's words (§4.5 of the spec / claim
C6), for refinement comparison against the source functions above: one
unified priority table, with the bool category restricted to description
context. -/

/-- Unified type-inference table as the specification states it. -/
def inferType_claim (descriptionContext : Bool) (text : List Char) : List Char :=
  let l := pyLowerL text
  if (["file", "path", "directory", "dir", "source", "dest", "target"]).any
      (fun w => containsSub w.data l) then "path".data
  else if (["pattern", "string", "text", "name"]).any
      (fun w => containsSub w.data l) then "str".data
  else if (["number", "count", "size", "port"]).any
      (fun w => containsSub w.data l) then "int".data
  else if descriptionContext && (["verbose", "quiet", "debug"]).any
      (fun w => containsSub w.data l) then "bool".data
  else "str".data

/-- Description-side table as the code actually implements it (amended
claim C6): reduced keyword lists, bool category, default str. -/
def inferTypeDesc_amended (text : List Char) : List Char :=
  let l := pyLowerL text
  if (["file", "path", "directory"]).any (fun w => containsSub w.data l) then
    "path".data
  else if (["number", "count", "size"]).any (fun w => containsSub w.data l) then
    "int".data
  else if (["verbose", "quiet", "debug"]).any (fun w => containsSub w.data l) then
    "bool".data
  else "str".data

/-! ## Command wrapper (`src/wrapper.py`) -/

/-- Model of Python `str.isidentifier` (ASCII scope): first character a
letter or underscore, the rest word characters. -/
def isIdentM : List Char → Bool
  | [] => false
  | c :: cs => (c.isAlpha || c = '_') && cs.all isWordChar

/-- First statement of `_normalize_kwargs_key`: strip leading dash and
slash characters. -/
def nkStrip (key : List Char) : List Char :=
  key.dropWhile (fun c => c = '-' || c = '/')

/-- Second statement: empty remainder → `'empty'`. -/
def nkEmpty (dest : List Char) : List Char :=
  if dest.isEmpty then "empty".data else dest

/-- Third statement: remaining `'-'` → `'_'`. -/
def nkDash (dest : List Char) : List Char :=
  dest.map (fun c => if c = '-' then '_' else c)

/-- Fourth statement: bare `'?'` → `'question'`, leading `'?'` →
`'question_'` prefix. -/
def nkQuestion (dest : List Char) : List Char :=
  if dest = "?".data then "question".data
  else if startsWithL "?".data dest then "question_".data ++ dest.drop 1
  else dest

/-- Final fix-up when the result is not yet an identifier: every
non-word character → `'_'`, and a leading digit gets a `'_'` prefix. -/
def nkFix (dest : List Char) : List Char :=
  let d := dest.map (fun c => if isWordChar c then c else '_')
  if d.head?.elim false Char.isDigit then '_' :: d else d

/-- `CommandWrapper._normalize_kwargs_key`, the statements above in
source order, with the final `isidentifier` guard. -/
def normalize_kwargs_key (key : List Char) : List Char :=
  let dest := nkQuestion (nkDash (nkEmpty (nkStrip key)))
  if isIdentM dest then dest else nkFix dest

/-- A Python value as passed through `CommandWrapper.run`'s `kwargs`. -/
inductive PyVal where
  | none : PyVal
  | bool : Bool → PyVal
  | int : Int → PyVal
  | str : List Char → PyVal
  deriving Repr, DecidableEq

/-- Python truthiness of a `PyVal`. -/
def PyVal.truthy : PyVal → Bool
  | .none => false
  | .bool b => b
  | .int n => !(n == 0)
  | .str s => !s.isEmpty

/-- Python `value is None`. -/
def PyVal.isNone : PyVal → Bool
  | .none => true
  | _ => false

/-- Python `str(value)`. -/
def PyVal.pyStr : PyVal → List Char
  | .none => "None".data
  | .bool b => if b then "True".data else "False".data
  | .int n => (toString n).data
  | .str s => s

/-- `CommandWrapper._find_option_by_dest`. -/
def find_option_by_dest (spec : CommandSpec) (dest : List Char) : Option OptionSpec :=
  spec.options.find? (fun o => normalize_kwargs_key o.flag == dest)

/-- The kwargs loop of `CommandWrapper.run`: normalized-key lookup first,
exact-flag fallback, then boolean/value flag emission. -/
def kwargsLoop (spec : CommandSpec) (acc : List (List Char)) :
    List (List Char × PyVal) → List (List Char)
  | [] => acc
  | (key, value) :: rest =>
    let opt1 :=
      match find_option_by_dest spec key with
      | some o => some o
      | none => spec.options.find? (fun o => o.flag == key)
    match opt1 with
    | some o =>
      if o.is_boolean && value.truthy then
        kwargsLoop spec (acc ++ [o.flag]) rest
      else if !o.is_boolean && !value.isNone then
        kwargsLoop spec (acc ++ [o.flag, value.pyStr]) rest
      else kwargsLoop spec acc rest
    | none => kwargsLoop spec acc rest

/-- The positional loop of `CommandWrapper.run`: one provided argument per
declared positional slot, missing required arguments silently skipped,
surplus provided arguments dropped. -/
def posArgsLoop : List PositionalArgSpec → List PyVal → List (List Char)
  | [], _ => []
  | _ :: ps, [] => posArgsLoop ps []
  | _ :: ps, a :: rest => a.pyStr :: posArgsLoop ps rest

/-- The `cmd_args` vector built by `CommandWrapper.run`. -/
def build_cmd_args (command_name : List Char) (spec : CommandSpec)
    (args : List PyVal) (kwargs : List (List Char × PyVal)) : List (List Char) :=
  kwargsLoop spec [command_name] kwargs ++ posArgsLoop spec.positional_args args

/-- Outcome of the `subprocess.run` call inside `CommandWrapper.run`:
normal completion, `subprocess.TimeoutExpired`, or any other exception
with its message. -/
inductive SubprocOutcome where
  | completed : List Char → List Char → Int → SubprocOutcome
  | timedOut : SubprocOutcome
  | failed : List Char → SubprocOutcome

/-- `CommandWrapper.run` with the subprocess call abstracted as an
`outcome` and the wall clock as `elapsed`: the try/except structure maps
each outcome to the `ExecutionResult` the source constructs for it. -/
def CommandWrapper.run (command_name : List Char) (spec : CommandSpec)
    (timeout : Nat) (args : List PyVal) (kwargs : List (List Char × PyVal))
    (outcome : SubprocOutcome) (elapsed : Float) : ExecutionResult :=
  let cmd_args := build_cmd_args command_name spec args kwargs
  match outcome with
  | .completed out err code =>
    { command := joinSpace cmd_args, stdout := out, stderr := err
      return_code := code, elapsed := elapsed }
  | .timedOut =>
    { command := joinSpace cmd_args, stdout := []
      stderr := "Command timed out after ".data ++ (toString timeout).data ++
        " seconds".data
      return_code := -1, elapsed := elapsed }
  | .failed msg =>
    { command := joinSpace cmd_args, stdout := []
      stderr := "Command execution failed: ".data ++ msg
      return_code := -1, elapsed := elapsed }

/-! ## Helper lemmas -/

theorem startsWithL_append_self (p x : List Char) : startsWithL p (p ++ x) = true := by
  induction p with
  | nil => simp [startsWithL]
  | cons c cs ih => simp [startsWithL, ih]

theorem containsSub_append_self (p b : List Char) : containsSub p (p ++ b) = true := by
  cases p with
  | nil =>
    cases b with
    | nil => simp [containsSub, List.isEmpty]
    | cons c cs => simp [containsSub, startsWithL]
  | cons c cs =>
    simp only [List.cons_append, containsSub]
    have := startsWithL_append_self (c :: cs) b
    simp only [List.cons_append] at this
    simp [this]

theorem containsSub_cons_of (p s : List Char) (c : Char)
    (h : containsSub p s = true) : containsSub p (c :: s) = true := by
  simp [containsSub, h]

theorem containsSub_append_of (p a s : List Char)
    (h : containsSub p s = true) : containsSub p (a ++ s) = true := by
  induction a with
  | nil => simpa using h
  | cons c cs ih => simpa using containsSub_cons_of p (cs ++ s) c ih

theorem extract_usage_go_nil (lines : List (List Char))
    (h : lines.all (fun l => !is_usage_header (stripL l)) = true) :
    extract_usage_go lines = [] := by
  induction lines with
  | nil => rfl
  | cons l ls ih =>
    simp only [List.all_cons, Bool.and_eq_true, Bool.not_eq_true'] at h
    simp [extract_usage_go, h.1, ih h.2]

theorem extract_options_go_nil (lines : List (List Char))
    (h : lines.all (fun l => !is_option_line (stripL l)) = true) :
    extract_options_go lines = [] := by
  induction lines with
  | nil => rfl
  | cons l ls ih =>
    simp only [List.all_cons, Bool.and_eq_true, Bool.not_eq_true'] at h
    simp [extract_options_go, h.1, ih h.2]

theorem extract_examples_go_nil (lines : List (List Char))
    (h : lines.all (fun l => !containsSub ("example").data (pyLowerL (stripL l))) = true) :
    extract_examples_go false lines = [] := by
  induction lines with
  | nil => rfl
  | cons l ls ih =>
    simp only [List.all_cons, Bool.and_eq_true, Bool.not_eq_true'] at h
    simp [extract_examples_go, h.1, ih h.2]

theorem containsSub_self (p : List Char) : containsSub p p = true := by
  have := containsSub_append_self p []
  simpa using this

theorem nkEmpty_ne_nil (d : List Char) : nkEmpty d ≠ [] := by
  unfold nkEmpty
  split
  · decide
  · next h =>
    intro hc
    exact h (hc ▸ rfl)

theorem nkDash_ne_nil (d : List Char) (h : d ≠ []) : nkDash d ≠ [] := by
  unfold nkDash
  simpa using h

theorem nkQuestion_ne_nil (d : List Char) (h : d ≠ []) : nkQuestion d ≠ [] := by
  unfold nkQuestion
  split
  · decide
  · split
    · simp [String.data]
    · exact h

theorem isIdentM_ne_nil (s : List Char) (h : isIdentM s = true) : s ≠ [] := by
  cases s with
  | nil => simp [isIdentM] at h
  | cons c cs => simp

theorem wordify_head (c : Char) : isWordChar (if isWordChar c then c else '_') = true := by
  by_cases h : isWordChar c = true
  · rw [if_pos h]; exact h
  · rw [if_neg h]; decide

theorem wordify_all (l : List Char) :
    (l.map (fun c => if isWordChar c then c else '_')).all isWordChar = true := by
  induction l with
  | nil => rfl
  | cons c cs ih => simp [List.all_cons, wordify_head c, ih]

theorem nkFix_ident (d : List Char) (h : d ≠ []) : isIdentM (nkFix d) = true := by
  cases d with
  | nil => exact absurd rfl h
  | cons c cs =>
    unfold nkFix
    simp only [List.map_cons, List.head?_cons, Option.elim]
    generalize hfc : (if isWordChar c then c else '_') = fc
    have hw : isWordChar fc = true := hfc ▸ wordify_head c
    by_cases hd : fc.isDigit = true
    · rw [if_pos hd]
      simp only [isIdentM, List.all_cons, Bool.and_eq_true]
      refine ⟨by decide, ?_, ?_⟩
      · exact hw
      · exact wordify_all cs
    · rw [if_neg hd]
      simp only [isIdentM, Bool.and_eq_true]
      constructor
      · unfold isWordChar at hw
        have hw' : (fc.isAlpha = true ∨ fc.isDigit = true) ∨ fc = '_' := by
          simpa using hw
        rcases hw' with (ha | hdg) | he
        · simp [ha]
        · exact absurd hdg hd
        · simp [he]
      · exact wordify_all cs

theorem normalize_ident (key : List Char) : isIdentM (normalize_kwargs_key key) = true := by
  show isIdentM (if isIdentM (nkQuestion (nkDash (nkEmpty (nkStrip key)))) then
    nkQuestion (nkDash (nkEmpty (nkStrip key)))
    else nkFix (nkQuestion (nkDash (nkEmpty (nkStrip key))))) = true
  by_cases h : isIdentM (nkQuestion (nkDash (nkEmpty (nkStrip key)))) = true
  · rw [if_pos h]; exact h
  · rw [if_neg h]
    exact nkFix_ident _ (nkQuestion_ne_nil _ (nkDash_ne_nil _ (nkEmpty_ne_nil _)))

/-! ## Claim theorems -/

/-- C1: parsing the POSIX help text
`"Usage: cp [OPTION]... [-T] SOURCE DEST\n\n  -r  recursive\n  -v  verbose"`
yields usage line `"cp [OPTION]... [-T] SOURCE DEST"`, exactly the two
required non-variadic positional arguments SOURCE then DEST, and exactly
the two boolean options `-r` then `-v`. -/
theorem c1_cp_help_scenario :
    parse_help_text (("cp").data)
      (("Usage: cp [OPTION]... [-T] SOURCE DEST\n\n  -r  recursive\n  -v  verbose").data) =
    { name := ("cp").data
      usage := ("cp [OPTION]... [-T] SOURCE DEST").data
      options :=
        [ { flag := ("-r").data, takes_value := false
            description := ("recursive").data, type_hint := some (("str").data) },
          { flag := ("-v").data, takes_value := false
            description := ("verbose").data, type_hint := some (("bool").data) } ]
      positional_args :=
        [ { name := ("SOURCE").data, required := true, variadic := false
            type_hint := some (("path").data) },
          { name := ("DEST").data, required := true, variadic := false
            type_hint := some (("path").data) } ]
      description := []
      examples := [] } := by decide

/-- C2 counterexample: the POSIX option line
`"-c[:<stream_spec>] <codec>  select encoder/decoder"` parses with
`takes_value = false`, not `true` as the claim states (the line has no
`=` and its description contains none of the value-indicator words). -/
theorem c2_counterexample :
    (parse_option_line (("-c[:<stream_spec>] <codec>  select encoder/decoder").data)).map
      (fun o => o.takes_value) ≠ some true := by decide

/-- C2 amended: the option line
`"-c[:<stream_spec>] <codec>  select encoder/decoder"` parses to flag
`-c` and description `select encoder/decoder`, but with
`takes_value = false`. -/
theorem c2_complex_option_line :
    parse_option_line (("-c[:<stream_spec>] <codec>  select encoder/decoder").data) =
      some { flag := ("-c").data, takes_value := false
             description := ("select encoder/decoder").data
             type_hint := some (("str").data) } := by decide

/-- C3 counterexample: a whitespace-only command name is truthy in the
source, so `parse_command` proceeds to help-text acquisition (and with an
acquirer returning real help text the result is not all-empty). -/
theorem c3_counterexample :
    ((" ").data).all isPySpace = true ∧
    acquisition_attempted ((" ").data) = true ∧
    (parse_command (fun _ => ("Usage: foo bar qux").data) ((" ").data)).usage ≠ [] :=
  ⟨by decide, by decide, by decide⟩

/-- C3 amended: only the empty command name short-circuits —
`parse_command` returns the all-empty specification for `""` without
consulting the acquirer, and the acquisition branch is reached exactly by
non-empty names. -/
theorem c3_empty_name_only :
    (∀ acquire : List Char → List Char, parse_command acquire [] = emptySpec) ∧
    acquisition_attempted [] = false :=
  ⟨fun _ => rfl, rfl⟩

/-- C4 counterexample: positional-argument extraction is not idempotent
on its own normalized output — re-extracting from `"SOURCE DEST"` differs
from extracting from `"cp [OPTION]... [-T] SOURCE DEST"`. -/
theorem c4_counterexample :
    extract_positional_args (("SOURCE DEST").data) ≠
      extract_positional_args (("cp [OPTION]... [-T] SOURCE DEST").data) := by decide

/-- C4 amended: extracting from the original usage line yields SOURCE and
DEST, but re-extracting from the normalized `"SOURCE DEST"` yields only
DEST, because the extractor strips the first token as the command name. -/
theorem c4_reextraction_drops_first_token :
    extract_positional_args (("cp [OPTION]... [-T] SOURCE DEST").data) =
      [ { name := ("SOURCE").data, required := true, variadic := false
          type_hint := some (("path").data) },
        { name := ("DEST").data, required := true, variadic := false
          type_hint := some (("path").data) } ] ∧
    extract_positional_args (("SOURCE DEST").data) =
      [ { name := ("DEST").data, required := true, variadic := false
          type_hint := some (("path").data) } ] :=
  ⟨by decide, by decide⟩

/-- C5: any usage line whose lower-cased text matches
`<command>\s+<subcommand>` is short-circuited to exactly the two required
non-variadic arguments COMMAND and SUBCOMMAND, with no further token
processing. -/
theorem c5_hierarchical_short_circuit (usage : List Char)
    (h : reSearchAt cmdSubRE (pyLowerL usage) = true) :
    extract_positional_args usage = [commandArg, subcommandArg] := by
  cases usage with
  | nil => exact absurd h (by decide)
  | cons c cs =>
    unfold extract_positional_args
    simp [h]

/-- C5 witness: the short-circuit at the concrete usage line
`"gh <command> <subcommand> [flags]"`. -/
theorem c5_witness :
    reSearchAt cmdSubRE (pyLowerL (("gh <command> <subcommand> [flags]").data)) = true ∧
    extract_positional_args (("gh <command> <subcommand> [flags]").data) =
      [commandArg, subcommandArg] :=
  ⟨by decide, c5_hierarchical_short_circuit (("gh <command> <subcommand> [flags]").data) (by decide)⟩

/-- C6 counterexample: description-side type inference does not follow
the claimed unified keyword table — on the description `"source"` the
code returns `str` while the claimed table returns `path`. -/
theorem c6_counterexample :
    infer_type_hint (("source").data) ≠ some (inferType_claim true (("source").data)) ∧
    infer_type_hint (("source").data) = some (("str").data) ∧
    inferType_claim true (("source").data) = ("path").data :=
  ⟨by decide, by decide, by decide⟩

/-- C6 amended: the claimed priority table holds exactly for
positional-argument names; description inference returns no hint for
empty text and otherwise follows the reduced tables
file/path/directory → path, number/count/size → int,
verbose/quiet/debug → bool, default str. -/
theorem c6_type_inference_tables :
    (∀ s : List Char, infer_positional_type s = inferType_claim false s) ∧
    infer_type_hint [] = none ∧
    (∀ s : List Char, s.isEmpty = false →
      infer_type_hint s = some (inferTypeDesc_amended s)) := by
  refine ⟨fun s => rfl, rfl, fun s h => ?_⟩
  unfold infer_type_hint inferTypeDesc_amended
  rw [if_neg (by simp [h])]
  dsimp only
  split_ifs <;> rfl

/-- C6 witness: the description-side table at the concrete description
`"count"`. -/
theorem c6_witness :
    ((("count").data : List Char).isEmpty = false) ∧
    infer_type_hint (("count").data) = some (inferTypeDesc_amended (("count").data)) :=
  ⟨by decide, c6_type_inference_tables.2.2 (("count").data) (by decide)⟩

/-- C7 counterexample: the sentinel help text for the command name
`"usage: hi"` does not produce an all-empty specification — the sentinel
line itself is taken as a usage header and yields usage `"hi"`. -/
theorem c7_counterexample :
    (parse_help_text (("usage: hi").data) (sentinelNoHelp (("usage: hi").data))).usage ≠ [] := by
  decide

/-- C7 amended: for any command name X whose sentinel text
`"No help available for X"` contains no usage-header line, no option
line and no example marker, parsing yields name X and every other field
empty (the description is empty for every X, by sentinel detection). -/
theorem c7_sentinel_all_empty (X : List Char)
    (h1 : (splitOnNl (sentinelNoHelp X)).all (fun l => !is_usage_header (stripL l)) = true)
    (h2 : (splitOnNl (sentinelNoHelp X)).all (fun l => !is_option_line (stripL l)) = true)
    (h3 : (splitOnNl (sentinelNoHelp X)).all
      (fun l => !containsSub (("example").data) (pyLowerL (stripL l))) = true) :
    parse_help_text X (sentinelNoHelp X) =
      { name := X, usage := [], options := [], positional_args := []
        description := [], examples := [] } := by
  have hu : extract_usage (sentinelNoHelp X) = [] := extract_usage_go_nil _ h1
  have ho : extract_options (sentinelNoHelp X) = [] := extract_options_go_nil _ h2
  have he : extract_examples (sentinelNoHelp X) = [] := extract_examples_go_nil _ h3
  have hd : extract_description (sentinelNoHelp X) = [] := by
    have hdet : sentinelDetected (sentinelNoHelp X) = true := by
      unfold sentinelDetected sentinelNoHelp
      have hsplit : (("No help available for ").data : List Char) =
          ("No help available").data ++ (" for ").data := by decide
      rw [hsplit, List.append_assoc, containsSub_append_self]
      simp
    simp [extract_description, hdet]
  unfold parse_help_text
  rw [hu, ho, hd, he]
  rfl

/-- C7 witness: the amended statement at the concrete command name
`"cp"`. -/
theorem c7_witness :
    (splitOnNl (sentinelNoHelp (("cp").data))).all
      (fun l => !is_usage_header (stripL l)) = true ∧
    (splitOnNl (sentinelNoHelp (("cp").data))).all
      (fun l => !is_option_line (stripL l)) = true ∧
    (splitOnNl (sentinelNoHelp (("cp").data))).all
      (fun l => !containsSub (("example").data) (pyLowerL (stripL l))) = true ∧
    parse_help_text (("cp").data) (sentinelNoHelp (("cp").data)) =
      { name := ("cp").data, usage := [], options := [], positional_args := []
        description := [], examples := [] } :=
  ⟨by decide, by decide, by decide,
   c7_sentinel_all_empty (("cp").data) (by decide) (by decide) (by decide)⟩

/-- C8: the extractors are total functions of the input text (no
exception paths exist in the embedding), and input without a recognized
pattern yields an empty string or an empty list: a text with no
usage-header line gives an empty usage, a text with no option lines gives
no options, and an empty usage line gives no positional arguments. -/
theorem c8_extractors_no_pattern_empty (text : List Char) :
    ((splitOnNl text).all (fun l => !is_usage_header (stripL l)) = true →
      extract_usage text = []) ∧
    ((splitOnNl text).all (fun l => !is_option_line (stripL l)) = true →
      extract_options text = []) ∧
    extract_positional_args [] = [] :=
  ⟨fun h => extract_usage_go_nil _ h, fun h => extract_options_go_nil _ h, rfl⟩

/-- C8 witness: the three empty results at the concrete pattern-free text
`"hello world"`. -/
theorem c8_witness :
    extract_usage (("hello world").data) = [] ∧
    extract_options (("hello world").data) = [] ∧
    extract_positional_args [] = [] :=
  ⟨(c8_extractors_no_pattern_empty (("hello world").data)).1 (by decide),
   (c8_extractors_no_pattern_empty (("hello world").data)).2.1 (by decide),
   (c8_extractors_no_pattern_empty (("hello world").data)).2.2⟩

/-- C9: flag normalization always yields a non-empty valid identifier;
in particular `"--dry-run"` normalizes to `"dry_run"`, the bare
alternate-platform help flag `"/?"` to `"question"`, and the empty flag
to `"empty"`. -/
theorem c9_normalize_identifier :
    (∀ key : List Char,
      isIdentM (normalize_kwargs_key key) = true ∧ normalize_kwargs_key key ≠ []) ∧
    normalize_kwargs_key (("--dry-run").data) = ("dry_run").data ∧
    normalize_kwargs_key (("/?").data) = ("question").data ∧
    normalize_kwargs_key [] = ("empty").data :=
  ⟨fun key => ⟨normalize_ident key, isIdentM_ne_nil _ (normalize_ident key)⟩,
   by decide, by decide, by decide⟩

/-- C10: `CommandWrapper.run` never propagates a subprocess failure — on
timeout or on any other exception it returns an `ExecutionResult` with
return code -1 (hence `success = false`), empty stdout, and a stderr
containing the error message. -/
theorem c10_run_never_raises (name : List Char) (spec : CommandSpec) (timeout : Nat)
    (args : List PyVal) (kwargs : List (List Char × PyVal)) (elapsed : Float)
    (msg : List Char) :
    ((CommandWrapper.run name spec timeout args kwargs SubprocOutcome.timedOut elapsed).return_code = -1 ∧
     (CommandWrapper.run name spec timeout args kwargs SubprocOutcome.timedOut elapsed).success = false ∧
     (CommandWrapper.run name spec timeout args kwargs SubprocOutcome.timedOut elapsed).stdout = [] ∧
     containsSub (("timed out").data)
       (CommandWrapper.run name spec timeout args kwargs SubprocOutcome.timedOut elapsed).stderr = true) ∧
    ((CommandWrapper.run name spec timeout args kwargs (SubprocOutcome.failed msg) elapsed).return_code = -1 ∧
     (CommandWrapper.run name spec timeout args kwargs (SubprocOutcome.failed msg) elapsed).success = false ∧
     (CommandWrapper.run name spec timeout args kwargs (SubprocOutcome.failed msg) elapsed).stdout = [] ∧
     containsSub msg
       (CommandWrapper.run name spec timeout args kwargs (SubprocOutcome.failed msg) elapsed).stderr = true) := by
  constructor
  · refine ⟨rfl, rfl, rfl, ?_⟩
    show containsSub (("timed out").data)
      (("Command timed out after ").data ++ (toString timeout).data ++ (" seconds").data) = true
    have hsplit : (("Command timed out after ").data : List Char) =
        ("Command ").data ++ (("timed out").data ++ (" after ").data) := by decide
    rw [hsplit, List.append_assoc, List.append_assoc, List.append_assoc]
    exact containsSub_append_of _ _ _ (containsSub_append_self _ _)
  · refine ⟨rfl, rfl, rfl, ?_⟩
    show containsSub msg (("Command execution failed: ").data ++ msg) = true
    exact containsSub_append_of _ _ _ (containsSub_self msg)

end UCW
